import Mathlib

/-!
# Verification of the Tressa backend's security / delivery middleware

This file is a shallow embedding, in Lean 4, of the request-handling core of
the Tressa pastebin backend:

* `app/core/security_middleware.py` — rate limiting (`RateLimiter`),
  content sanitization (`sanitize_content`), language heuristics
  (`validate_content_type`), size ceilings (`validate_content_size`),
  ETag generation and conditional-request checking
  (`generate_etag`, `check_if_none_match`), security headers;
* `app/core/config.py` — the size-limit settings;
* `app/schemas/tress.py` — the request/response schemas and their
  pydantic validation;
* `app/api/endpoints/tress.py` — the snippet endpoints (create, update,
  read, raw read, paginated lists, delete).

Modelling conventions:

* Python strings are Lean `String` (Python indexing/slicing/`len` are by
  code point, as in Lean's `List Char` view).  UTF-8 byte strings are
  `List ℕ` (each entry < 256).
* `time.time()` instants and `datetime` values are integers (seconds);
  `timedelta(days = d)` is `86400 * d`.  Sub-second fractions play no role
  in any statement proved here.
* Machine floats never carry program logic in the modelled code paths:
  the only float computations are the human-readable size strings in the
  413 error message, modelled structurally by the error payload carrying
  the two integers that the message is formatted from.
* The `\w` and `\s` regex classes are modelled over their ASCII parts
  (the specification's heuristics and all statements below use only
  ASCII content).
* Fallible handlers return `Except ApiError α`; the FastAPI
  `HTTPException(status, detail)` is the `ApiError.http` constructor, a
  pydantic request-validation rejection is `ApiError.validationFailed`,
  and the 413 size error is `ApiError.payloadTooLarge` (see above).
* Global mutable state (the module-level `rate_limiter`) is passed
  explicitly into each endpoint; the stored-snippet table is a
  `List Tress` passed explicitly.
-/

/-! ## Character classes and case folding (ASCII) -/

/-- ASCII lower-casing, as applied by Python's `str.lower()` and by
`re.IGNORECASE` on the ASCII patterns appearing in the source. -/
def asciiLower (c : Char) : Char :=
  if 'A' ≤ c ∧ c ≤ 'Z' then Char.ofNat (c.toNat + 32) else c

/-- Python's regex class `\s` (ASCII part): space, tab, newline, carriage
return, vertical tab, form feed. -/
def isWs (c : Char) : Bool :=
  c = ' ' || c = '\t' || c = '\n' || c = '\r' || c = '\x0b' || c = '\x0c'

/-- Python's regex class `\w` (ASCII part): letters, digits, underscore. -/
def isWordChar (c : Char) : Bool :=
  ('a' ≤ asciiLower c && asciiLower c ≤ 'z') || ('0' ≤ c && c ≤ '9') || c = '_'

/-- Case-insensitive "the pattern `pat` is a literal prefix of `s`"
(both sides ASCII-lower-cased, mirroring `re.IGNORECASE`). -/
def startsWithCI : List Char → List Char → Bool
  | [], _ => true
  | _ :: _, [] => false
  | p :: ps, c :: cs => (asciiLower p = asciiLower c : Bool) && startsWithCI ps cs

/-- Python `s.lower()` over ASCII strings. -/
def lowerStr (s : String) : String :=
  ⟨s.data.map asciiLower⟩

/-- Least index at which `pat` occurs (case-insensitively) in `s`. -/
def findIdxCI (pat : List Char) : List Char → Option ℕ
  | [] => if startsWithCI pat [] then some 0 else none
  | c :: tl =>
    if startsWithCI pat (c :: tl) then some 0
    else (findIdxCI pat tl).map (· + 1)

/-! ## UTF-8 encoding (`str.encode('utf-8')`) -/

/-- UTF-8 encoding of one Unicode scalar value, as a list of bytes. -/
def utf8Char (c : Char) : List ℕ :=
  let n := c.toNat
  if n < 128 then [n]
  else if n < 2048 then [192 + n / 64, 128 + n % 64]
  else if n < 65536 then [224 + n / 4096, 128 + n / 64 % 64, 128 + n % 64]
  else [240 + n / 262144, 128 + n / 4096 % 64, 128 + n / 64 % 64, 128 + n % 64]

/-- UTF-8 encoding of a string (Python `content.encode('utf-8')`). -/
def utf8Encode (s : List Char) : List ℕ :=
  (s.map utf8Char).flatten

/-! ## MD5 (`hashlib.md5(...).hexdigest()`)

The reference MD5 algorithm (RFC 1321), over byte lists; used by
`generate_etag`. All words are naturals reduced mod `2 ^ 32`. -/

/-- The 64 MD5 sine-table constants. -/
def md5K : List ℕ :=
  [0xd76aa478, 0xe8c7b756, 0x242070db, 0xc1bdceee,
   0xf57c0faf, 0x4787c62a, 0xa8304613, 0xfd469501,
   0x698098d8, 0x8b44f7af, 0xffff5bb1, 0x895cd7be,
   0x6b901122, 0xfd987193, 0xa679438e, 0x49b40821,
   0xf61e2562, 0xc040b340, 0x265e5a51, 0xe9b6c7aa,
   0xd62f105d, 0x02441453, 0xd8a1e681, 0xe7d3fbc8,
   0x21e1cde6, 0xc33707d6, 0xf4d50d87, 0x455a14ed,
   0xa9e3e905, 0xfcefa3f8, 0x676f02d9, 0x8d2a4c8a,
   0xfffa3942, 0x8771f681, 0x6d9d6122, 0xfde5380c,
   0xa4beea44, 0x4bdecfa9, 0xf6bb4b60, 0xbebfbc70,
   0x289b7ec6, 0xeaa127fa, 0xd4ef3085, 0x04881d05,
   0xd9d4d039, 0xe6db99e5, 0x1fa27cf8, 0xc4ac5665,
   0xf4292244, 0x432aff97, 0xab9423a7, 0xfc93a039,
   0x655b59c3, 0x8f0ccc92, 0xffeff47d, 0x85845dd1,
   0x6fa87e4f, 0xfe2ce6e0, 0xa3014314, 0x4e0811a1,
   0xf7537e82, 0xbd3af235, 0x2ad7d2bb, 0xeb86d391]

/-- The 64 MD5 per-round left-rotation amounts. -/
def md5S : List ℕ :=
  [7, 12, 17, 22, 7, 12, 17, 22, 7, 12, 17, 22, 7, 12, 17, 22,
   5, 9, 14, 20, 5, 9, 14, 20, 5, 9, 14, 20, 5, 9, 14, 20,
   4, 11, 16, 23, 4, 11, 16, 23, 4, 11, 16, 23, 4, 11, 16, 23,
   6, 10, 15, 21, 6, 10, 15, 21, 6, 10, 15, 21, 6, 10, 15, 21]

/-- Little-endian 8-byte encoding of a (64-bit) natural. -/
def le8 (n : ℕ) : List ℕ :=
  [n % 256, n / 256 % 256, n / 65536 % 256, n / 16777216 % 256,
   n / 4294967296 % 256, n / 1099511627776 % 256,
   n / 281474976710656 % 256, n / 72057594037927936 % 256]

/-- Little-endian 4-byte encoding of a (32-bit) natural. -/
def le4 (n : ℕ) : List ℕ :=
  [n % 256, n / 256 % 256, n / 65536 % 256, n / 16777216 % 256]

/-- MD5 padding: append `0x80`, zero bytes up to 56 mod 64, then the
bit length as 8 little-endian bytes. -/
def md5Pad (msg : List ℕ) : List ℕ :=
  msg ++ [128] ++ List.replicate ((119 - msg.length % 64) % 64) 0
      ++ le8 (8 * msg.length % 18446744073709551616)

/-- Split a byte list into 64-byte blocks (fueled; the fuel is always
sufficient at the call site). -/
def toBlocks : ℕ → List ℕ → List (List ℕ)
  | 0, _ => []
  | _ + 1, [] => []
  | fuel + 1, l => l.take 64 :: toBlocks fuel (l.drop 64)

/-- The `g`-th little-endian 32-bit word of a 64-byte block. -/
def md5Word (blk : List ℕ) (g : ℕ) : ℕ :=
  blk.getD (4 * g) 0 + 256 * blk.getD (4 * g + 1) 0
    + 65536 * blk.getD (4 * g + 2) 0 + 16777216 * blk.getD (4 * g + 3) 0

/-- One MD5 round (round index `i`, 0-based). -/
def md5Round (blk : List ℕ) (st : ℕ × ℕ × ℕ × ℕ) (i : ℕ) : ℕ × ℕ × ℕ × ℕ :=
  let a := st.1; let b := st.2.1; let c := st.2.2.1; let d := st.2.2.2
  let fg : ℕ × ℕ :=
    if i < 16 then ((b &&& c) ||| ((4294967295 - b) &&& d), i)
    else if i < 32 then ((d &&& b) ||| ((4294967295 - d) &&& c), (5 * i + 1) % 16)
    else if i < 48 then (b ^^^ c ^^^ d, (3 * i + 5) % 16)
    else (c ^^^ (b ||| (4294967295 - d)), (7 * i) % 16)
  let f := (fg.1 + a + md5K.getD i 0 + md5Word blk fg.2) % 4294967296
  let s := md5S.getD i 0
  let rot := f * 2 ^ s % 4294967296 + f / 2 ^ (32 - s)
  (d, (b + rot) % 4294967296, b, c)

/-- Process one 64-byte block, updating the running MD5 state. -/
def md5Block (st : ℕ × ℕ × ℕ × ℕ) (blk : List ℕ) : ℕ × ℕ × ℕ × ℕ :=
  let r := (List.range 64).foldl (md5Round blk) st
  ((st.1 + r.1) % 4294967296, (st.2.1 + r.2.1) % 4294967296,
   (st.2.2.1 + r.2.2.1) % 4294967296, (st.2.2.2 + r.2.2.2) % 4294967296)

/-- The lowercase hexadecimal digits. -/
def hexChars : List Char :=
  "0123456789abcdef".data

/-- Two lowercase hex characters for one byte. -/
def byteHex (b : ℕ) : List Char :=
  [hexChars.getD (b / 16 % 16) '0', hexChars.getD (b % 16) '0']

/-- MD5 digest of a byte string, as the usual 32-character lowercase hex
string (`hashlib.md5(bs).hexdigest()`). -/
def md5Hex (msg : List ℕ) : String :=
  let padded := md5Pad msg
  let st := (toBlocks (padded.length + 1) padded).foldl md5Block
    (0x67452301, 0xefcdab89, 0x98badcfe, 0x10325476)
  ⟨((le4 st.1 ++ le4 st.2.1 ++ le4 st.2.2.1 ++ le4 st.2.2.2).map byteHex).flatten⟩

/-! ## Errors

`ApiError.http` models FastAPI's `HTTPException(status_code, detail)`.
`ApiError.payloadTooLarge` models the 413 `HTTPException` raised by
`validate_content_size`, whose detail string is formatted from the
measured byte size and the applicable ceiling (the float formatting of
the message is modelled structurally by the payload carrying both
numbers).  `ApiError.validationFailed` models pydantic's request-schema
rejection, produced by FastAPI before the handler body runs. -/

inductive ApiError where
  | http (statusCode : ℕ) (detail : String)
  | payloadTooLarge (contentSize maxSize : ℕ)
  | validationFailed
  deriving DecidableEq, Repr

/-- The HTTP status carried by each error. -/
def ApiError.status : ApiError → ℕ
  | .http s _ => s
  | .payloadTooLarge _ _ => 413
  | .validationFailed => 422

/-! ## RateLimiter (`security_middleware.py`, class `RateLimiter`)

The Python object stores, in `self.requests`, one deque of request
instants **per client IP** (`Dict[str, deque]`, keyed by the client
identity only), and a per-endpoint-class limit table `self.limits`.
The state is modelled as the map from client identity to its recorded
deque (oldest first); an absent key is the empty deque, as with
`defaultdict(deque)`. -/

structure RateLimiter where
  requests : String → List ℤ

/-- A freshly constructed limiter: no recorded requests. -/
def RateLimiter.init : RateLimiter := ⟨fun _ => []⟩

/-- `self.limits.get(endpoint_type, self.limits["default"])`:
requests-per-window limit and window length (seconds) per endpoint
class. -/
def rlLimits (endpoint_type : String) : ℕ × ℤ :=
  if endpoint_type = "public_read" then (100, 3600)
  else if endpoint_type = "raw_content" then (200, 3600)
  else (1000, 3600)

/-- `RateLimiter.is_allowed`: evict entries older than `now - window`
from the client's deque (the `while ... popleft()` loop), reject if the
remaining count is at least the class limit, else record `now` and
accept.  Returns the decision together with the mutated limiter. -/
def RateLimiter.is_allowed (rl : RateLimiter) (client_ip endpoint_type : String)
    (now : ℤ) : Bool × RateLimiter :=
  let cfg := rlLimits endpoint_type
  let q := (rl.requests client_ip).dropWhile (fun t => t < now - cfg.2)
  if cfg.1 ≤ q.length then
    (false, ⟨fun c => if c = client_ip then q else rl.requests c⟩)
  else
    (true, ⟨fun c => if c = client_ip then q ++ [now] else rl.requests c⟩)

/-- `RateLimiter.get_remaining_requests`: evict, then
`max(0, max_requests - len(request_times))`. -/
def RateLimiter.get_remaining_requests (rl : RateLimiter)
    (client_ip endpoint_type : String) (now : ℤ) : ℤ :=
  let cfg := rlLimits endpoint_type
  let q := (rl.requests client_ip).dropWhile (fun t => t < now - cfg.2)
  max 0 ((cfg.1 : ℤ) - q.length)

/-- `check_rate_limit`: raise 429 when `is_allowed` refuses, else pass,
returning the mutated limiter. -/
def check_rate_limit (rl : RateLimiter) (client_ip endpoint_type : String)
    (now : ℤ) : Except ApiError RateLimiter :=
  let r := rl.is_allowed client_ip endpoint_type now
  if r.1 then .ok r.2
  else .error (.http 429 "Rate limit exceeded. Please try again later.")

/-! ## Content sanitization (`sanitize_content`)

`html.escape(content)` (with its default `quote=True`) followed by
`re.sub` of the pattern `&lt;script.*?&gt;.*?&lt;/script&gt;` under
`re.IGNORECASE | re.DOTALL`. -/

/-- `html.escape` with `quote=True`, per character: the five special
characters become entity references, everything else is unchanged
(`html.escape` replaces `&` first, so the escaping is per-character). -/
def escapeChar (c : Char) : List Char :=
  if c = '&' then "&amp;".data
  else if c = '<' then "&lt;".data
  else if c = '>' then "&gt;".data
  else if c = '"' then "&quot;".data
  else if c = '\'' then "&#x27;".data
  else [c]

/-- `html.escape(s, quote=True)`. -/
def htmlEscape (s : List Char) : List Char :=
  (s.map escapeChar).flatten

/-- The literal `&lt;script` (10 characters) opening the script pattern. -/
def scriptOpen : List Char := "&lt;script".data

/-- The literal `&gt;` (4 characters) closing the opening tag. -/
def scriptGt : List Char := "&gt;".data

/-- The literal `&lt;/script&gt;` (15 characters) closing the pattern. -/
def scriptClose : List Char := "&lt;/script&gt;".data

/-- `re.sub(r'&lt;script.*?&gt;.*?&lt;/script&gt;', '', s)` under
`IGNORECASE | DOTALL`: scan left to right; at the first position where
the case-insensitive literal `&lt;script` matches, the lazy `.*?`
pieces take the first following `&gt;` and then the first following
`&lt;/script&gt;` (if either is missing there is no match at this
position); the whole match is deleted and scanning resumes after it.
Fueled by the scanned length (always sufficient at the call site). -/
def stripScriptsAux : ℕ → List Char → List Char
  | 0, s => s
  | fuel + 1, s =>
    match s with
    | [] => []
    | c :: tl =>
      if startsWithCI scriptOpen s then
        match findIdxCI scriptGt (s.drop 10) with
        | none => c :: stripScriptsAux fuel tl
        | some j =>
          match findIdxCI scriptClose (s.drop (10 + j + 4)) with
          | none => c :: stripScriptsAux fuel tl
          | some k => stripScriptsAux fuel (s.drop (10 + j + 4 + k + 15))
      else c :: stripScriptsAux fuel tl

/-- The escaped-script removal pass of `sanitize_content`. -/
def stripScripts (s : List Char) : List Char :=
  stripScriptsAux s.length s

/-- `sanitize_content`: return falsy content unchanged, else HTML-escape
and remove escaped script fragments. -/
def sanitize_content (content : String) : String :=
  if content = "" then content
  else ⟨stripScripts (htmlEscape content.data)⟩

/-! ## Language heuristics (`validate_content_type`)

Each regex in `validation_rules` is compiled to an executable search
predicate on the content.  All searches are case-insensitive
(`re.IGNORECASE`); `re.search` looks for a match at any position. -/

/-- Skip a (possibly empty) run of whitespace: the semantics of `\s*`
followed by something that cannot begin with whitespace. -/
def skipWs (s : List Char) : List Char := s.dropWhile isWs

/-- `\s+` followed by a continuation whose first character cannot be
whitespace: at least one whitespace character, then the continuation at
the end of the whitespace run. -/
def wsPlusThen (f : List Char → Bool) : List Char → Bool
  | [] => false
  | c :: tl => isWs c && f (skipWs tl)

/-- Does the remaining text begin with a `\w` character? -/
def headIsWord : List Char → Bool
  | [] => false
  | c :: _ => isWordChar c

/-- `re.search`: the predicate holds at some position of the text. -/
def searchAny (p : List Char → Bool) : List Char → Bool
  | [] => p []
  | c :: tl => p (c :: tl) || searchAny p tl

/-- A rule of the shape `kw\s+\w+` (e.g. `function\s+\w+`). -/
def ruleKwWsWord (kw : String) : List Char → Bool :=
  searchAny fun s => startsWithCI kw.data s && wsPlusThen headIsWord (s.drop kw.length)

/-- A rule of the shape `k1\s+k2` with literal `k2` (e.g. `public\s+class`). -/
def ruleKwWsLit (k1 k2 : String) : List Char → Bool :=
  searchAny fun s => startsWithCI k1.data s && wsPlusThen (startsWithCI k2.data) (s.drop k1.length)

/-- A rule of the shape `kw\s+` (the SQL verbs, e.g. `SELECT\s+`). -/
def ruleKwWs (kw : String) : List Char → Bool :=
  searchAny fun s => startsWithCI kw.data s && wsPlusThen (fun _ => true) (s.drop kw.length)

/-- A plain literal substring rule (e.g. `<html`, `@media`). -/
def ruleLit (kw : String) : List Char → Bool :=
  searchAny (startsWithCI kw.data)

/-- The CSS rule `\w+\s*{`: some `\w` character followed by optional
whitespace and an opening brace. -/
def ruleWordBrace : List Char → Bool :=
  searchAny fun s =>
    match s with
    | [] => false
    | c :: tl => isWordChar c && (match skipWs tl with
        | '{' :: _ => true
        | _ => false)

/-- The CSS rule `:\s*\w+;`: a colon, optional whitespace, a `\w+` run,
then a semicolon immediately after the run. -/
def ruleColonWordSemi : List Char → Bool :=
  searchAny fun s =>
    match s with
    | [] => false
    | c :: tl =>
      (c = ':' : Bool) &&
        (let r := skipWs tl
         headIsWord r && (match r.dropWhile isWordChar with
           | ';' :: _ => true
           | _ => false))

/-- The anchored JSON rule `^\s*{` resp. `^\s*\[` (no `re.MULTILINE`, so
`^` matches only at the start of the string). -/
def ruleAnchored (c : Char) (s : List Char) : Bool :=
  match skipWs s with
  | c' :: _ => c' = c
  | [] => false

/-- `validation_rules`: the per-language signature table from
`validate_content_type`. -/
def validation_rules (lang : String) : List (List Char → Bool) :=
  if lang = "javascript" then
    [ruleKwWsWord "function", ruleKwWsWord "var", ruleKwWsWord "const", ruleKwWsWord "let"]
  else if lang = "python" then
    [ruleKwWsWord "def", ruleKwWsWord "import", ruleKwWsWord "from", ruleKwWsWord "class"]
  else if lang = "java" then
    [ruleKwWsLit "public" "class", ruleKwWsWord "private", ruleKwWsWord "public"]
  else if lang = "html" then
    [ruleLit "<html", ruleLit "<head", ruleLit "<body", ruleLit "<div"]
  else if lang = "css" then
    [ruleWordBrace, ruleColonWordSemi, ruleLit "@media"]
  else if lang = "json" then
    [ruleAnchored '{', ruleAnchored '[']
  else if lang = "sql" then
    [ruleKwWs "SELECT", ruleKwWs "INSERT", ruleKwWs "UPDATE", ruleKwWs "DELETE"]
  else []

/-- `validate_content_type`: empty language or content passes; unknown
language passes; a tabulated language passes iff at least one signature
matches. -/
def validate_content_type (language content : String) : Bool :=
  if language = "" || content = "" then true
  else
    let rules := validation_rules (lowerStr language)
    if rules.isEmpty then true
    else rules.any fun r => r content.data

/-! ## Size ceilings (`validate_content_size` with `config.Settings`) -/

/-- `Settings.MAX_CONTENT_SIZE_ANONYMOUS` (256 KiB). -/
def MAX_CONTENT_SIZE_ANONYMOUS : ℕ := 256 * 1024

/-- `Settings.MAX_CONTENT_SIZE_AUTHENTICATED` (1 MiB). -/
def MAX_CONTENT_SIZE_AUTHENTICATED : ℕ := 1024 * 1024

/-- `validate_content_size`: empty content passes; otherwise the UTF-8
byte length is measured and compared against the ceiling selected by
the authentication state; exceeding it raises the 413 error carrying
the measured size and the ceiling. -/
def validate_content_size (content : String) (is_authenticated : Bool) :
    Except ApiError Unit :=
  if content = "" then .ok ()
  else
    let contentSize := (utf8Encode content.data).length
    let maxSize := if is_authenticated then MAX_CONTENT_SIZE_AUTHENTICATED
      else MAX_CONTENT_SIZE_ANONYMOUS
    if maxSize < contentSize then .error (.payloadTooLarge contentSize maxSize)
    else .ok ()

/-! ## ETag / conditional requests (`generate_etag`, `check_if_none_match`) -/

/-- `generate_etag`: MD5 hex digest of the UTF-8 bytes of the content. -/
def generate_etag (content : String) : String :=
  md5Hex (utf8Encode content.data)

/-- Python `s.strip('"')`: remove every leading and trailing quote
character. -/
def stripQuotes (s : String) : String :=
  ⟨((s.data.dropWhile (· = '"')).reverse.dropWhile (· = '"')).reverse⟩

/-- `check_if_none_match`: the header value passes Python's truthiness
test `if if_none_match:` first, so an absent **or empty** header never
matches; otherwise the header matches iff it equals the tag after its
surrounding quotes are stripped. -/
def check_if_none_match (if_none_match : Option String) (etag : String) : Bool :=
  match if_none_match with
  | none => false
  | some h => if h = "" then false else stripQuotes h = etag

/-- `add_security_headers`: the four fixed headers, plus a restrictive
CSP when the Content-Type is textual (the case-sensitive Python
substring test `"text/" in content_type`). -/
def securityHeaders (contentType : String) : List (String × String) :=
  [("X-Content-Type-Options", "nosniff"),
   ("X-Frame-Options", "DENY"),
   ("X-XSS-Protection", "1; mode=block"),
   ("Referrer-Policy", "strict-origin-when-cross-origin")] ++
  (if searchAny (fun s => ("text/".data).isPrefixOf s) contentType.data then
    [("Content-Security-Policy", "default-src 'none'; style-src 'unsafe-inline'")]
  else [])

/-! ## Data model (`models/tress.py`, `schemas/tress.py`) -/

/-- The stored snippet row (`models.tress.Tress`). -/
structure Tress where
  id : ℤ
  title : String
  content : String
  language : String
  is_public : Bool
  owner_id : Option ℤ
  owner_username : Option String
  created_at : ℤ
  expires_at : Option ℤ
  deriving DecidableEq, Repr

/-- The authenticated user, as consumed by the endpoints (id and
username only). -/
structure AppUser where
  id : ℤ
  username : String
  deriving DecidableEq, Repr

/-- The request schema `schemas.tress.TressCreate`. -/
structure TressCreate where
  title : String
  content : String
  language : String
  is_public : Bool := true
  expires_in_days : Option ℤ := none
  deriving DecidableEq, Repr

/-- The pydantic field constraint on `TressCreate.expires_in_days`:
`Field(None, ge=1, le=365)`.  FastAPI applies it while parsing the
request body, before the handler body runs. -/
def tressCreate_valid (p : TressCreate) : Bool :=
  match p.expires_in_days with
  | none => true
  | some d => 1 ≤ d && d ≤ 365

/-- `select(Tress).where(Tress.id == tress_id)` + `scalar_one_or_none()`
over the modelled table. -/
def findTress (db : List Tress) (tress_id : ℤ) : Option Tress :=
  db.find? fun t => t.id = tress_id

/-- The handlers' expiry test: `db_tress.expires_at and
db_tress.expires_at <= now`. -/
def isExpired (t : Tress) (now : ℤ) : Bool :=
  match t.expires_at with
  | none => false
  | some e => e ≤ now

/-- The list filter `(Tress.expires_at.is_(None)) | (Tress.expires_at > now)`. -/
def liveAt (now : ℤ) (t : Tress) : Bool :=
  match t.expires_at with
  | none => true
  | some e => now < e

/-! ## Endpoints (`api/endpoints/tress.py`)

Each endpoint takes the global limiter, the client identity (the result
of `get_client_ip`), the stored table, the current instant and the
resolved current user, mirroring the FastAPI dependencies. -/

/-- `POST /api/tress/` (`create_tress`), the handler body: class-picked
rate limit, size validation, sanitization, language validation, expiry
resolution (with the anonymous-only 365-day check and the anonymous
30-day default), ownership resolution, and the created row (its id is
store-assigned, passed as `newId`). -/
def create_tress (rl : RateLimiter) (client : String) (newId now : ℤ)
    (current_user : Option AppUser) (tress : TressCreate) : Except ApiError Tress := do
  let endpoint_type := if current_user.isNone then "public_read" else "default"
  let _ ← check_rate_limit rl client endpoint_type now
  let _ ← validate_content_size tress.content current_user.isSome
  let sanitized := sanitize_content tress.content
  if !validate_content_type tress.language tress.content then
    throw (.http 400 "Content does not match the specified language type")
  else do
    let expires_at : Option ℤ ←
      match tress.expires_in_days with
      | some d =>
        if current_user.isNone && 365 < d then
          throw (.http 400 "Anonymous users can only set expiration up to 365 days")
        else pure (some (now + 86400 * d))
      | none =>
        if current_user.isNone then pure (some (now + 86400 * 30))
        else pure none
    pure
      { id := newId
        title := tress.title
        content := sanitized
        language := tress.language
        is_public := tress.is_public
        owner_id := current_user.map (·.id)
        owner_username := some (match current_user with
          | some u => u.username
          | none => "Anonymous")
        created_at := now
        expires_at := expires_at }

/-- `POST /api/tress/` including the request parsing stage: pydantic
validates `TressCreate` (in particular `expires_in_days ∈ [1, 365]`)
before the handler body runs. -/
def create_endpoint (rl : RateLimiter) (client : String) (newId now : ℤ)
    (current_user : Option AppUser) (tress : TressCreate) : Except ApiError Tress :=
  if !tressCreate_valid tress then .error .validationFailed
  else create_tress rl client newId now current_user tress

/-- `PUT /api/tress/{id}` (`update_tress`), the handler body: default
rate limit, fetch (404 when absent, 404 when expired), ownership check
(403), size validation as authenticated, sanitization, language
validation, expiry recomputation only when a day count is supplied, and
the mutated row (only the dumped `TressCreate` fields, the sanitized
content and `expires_at` are assigned). -/
def update_tress (rl : RateLimiter) (client : String) (db : List Tress)
    (tress_id : ℤ) (now : ℤ) (current_user : AppUser) (tress : TressCreate) :
    Except ApiError Tress := do
  let _ ← check_rate_limit rl client "default" now
  match findTress db tress_id with
  | none => throw (.http 404 "Tress not found")
  | some db_tress =>
    if isExpired db_tress now then
      throw (.http 404 "Tress has expired")
    else if db_tress.owner_id ≠ some current_user.id then
      throw (.http 403 "Not authorized to update this tress")
    else do
      let _ ← validate_content_size tress.content true
      let sanitized := sanitize_content tress.content
      if !validate_content_type tress.language tress.content then
        throw (.http 400 "Content does not match the specified language type")
      else
        let expires_at := match tress.expires_in_days with
          | some d => some (now + 86400 * d)
          | none => db_tress.expires_at
        pure { db_tress with
          title := tress.title
          content := sanitized
          language := tress.language
          is_public := tress.is_public
          expires_at := expires_at }

/-- `PUT /api/tress/{id}` including the pydantic parsing stage. -/
def update_endpoint (rl : RateLimiter) (client : String) (db : List Tress)
    (tress_id : ℤ) (now : ℤ) (current_user : AppUser) (tress : TressCreate) :
    Except ApiError Tress :=
  if !tressCreate_valid tress then .error .validationFailed
  else update_tress rl client db tress_id now current_user tress

/-- `GET /api/tress/{id}` (`read_tress`): anonymous requesters pass the
`public_read` rate limit; fetch (404 when absent, 404 when expired);
visibility check (403); return the entity. -/
def read_tress (rl : RateLimiter) (client : String) (db : List Tress)
    (tress_id : ℤ) (now : ℤ) (current_user : Option AppUser) : Except ApiError Tress := do
  if current_user.isNone then
    let _ ← check_rate_limit rl client "public_read" now
  match findTress db tress_id with
  | none => throw (.http 404 "Tress not found")
  | some tress =>
    if isExpired tress now then
      throw (.http 404 "Tress has expired")
    else
      match current_user with
      | none =>
        if !tress.is_public then
          throw (.http 403 "Not authorized to access this tress")
        else pure tress
      | some u =>
        if !tress.is_public && tress.owner_id ≠ some u.id then
          throw (.http 403 "Not authorized to access this tress")
        else pure tress

/-- The body of a raw-content response: either the 304 short-circuit
(`Response(status_code=304)`: no body, no content type, no
security-header pass), or the full `PlainTextResponse` carrying the
content, the inferred `Content-Type`, the quoted ETag, the
cache-control directive and the security headers. -/
inductive RawResponse where
  | notModified
  | full (content : String) (contentType : String) (etag : String)
      (cacheControl : String) (security : List (String × String))
  deriving DecidableEq, Repr

/-- The `content_type_map` lookup of `read_tress_raw`, with its
`text/plain` fallback. -/
def content_type_map (lang : String) : String :=
  if lang = "javascript" then "text/javascript"
  else if lang = "python" then "text/x-python"
  else if lang = "java" then "text/x-java-source"
  else if lang = "cpp" then "text/x-c++src"
  else if lang = "c" then "text/x-csrc"
  else if lang = "html" then "text/html"
  else if lang = "css" then "text/css"
  else if lang = "json" then "application/json"
  else if lang = "xml" then "application/xml"
  else if lang = "yaml" then "text/yaml"
  else if lang = "markdown" then "text/markdown"
  else if lang = "sql" then "text/x-sql"
  else if lang = "shell" then "text/x-shellscript"
  else if lang = "bash" then "text/x-shellscript"
  else if lang = "typescript" then "text/typescript"
  else if lang = "go" then "text/x-go"
  else if lang = "rust" then "text/x-rust"
  else if lang = "php" then "text/x-php"
  else if lang = "ruby" then "text/x-ruby"
  else "text/plain"

/-- `GET /api/tress/{id}/raw` (`read_tress_raw`): anonymous requesters
pass the `raw_content` rate limit; fetch (404 absent / 404 expired);
the same visibility check as `read_tress` (403); compute the ETag; on
an `If-None-Match` match answer 304 immediately; otherwise infer the
content type from the lowercased language, build the plain-text
response and attach the security headers. -/
def read_tress_raw (rl : RateLimiter) (client : String) (db : List Tress)
    (tress_id : ℤ) (now : ℤ) (current_user : Option AppUser)
    (if_none_match : Option String) : Except ApiError RawResponse := do
  if current_user.isNone then
    let _ ← check_rate_limit rl client "raw_content" now
  match findTress db tress_id with
  | none => throw (.http 404 "Tress not found")
  | some tress =>
    if isExpired tress now then
      throw (.http 404 "Tress has expired")
    else do
      match current_user with
      | none =>
        if !tress.is_public then
          throw (.http 403 "Not authorized to access this tress")
      | some u =>
        if !tress.is_public && tress.owner_id ≠ some u.id then
          throw (.http 403 "Not authorized to access this tress")
      let etag := generate_etag tress.content
      if check_if_none_match if_none_match etag then
        pure .notModified
      else
        let content_type := content_type_map (lowerStr tress.language)
        let ctHeader := content_type ++ "; charset=utf-8"
        pure (.full tress.content ctHeader ("\"" ++ etag ++ "\"")
          (if tress.is_public then "public, max-age=3600" else "public, max-age=300")
          (securityHeaders ctHeader))

/-- `DELETE /api/tress/{id}` (`delete_tress`): fetch (404 when absent);
the expiry check deliberately passes (expired snippets stay deletable);
ownership check (403); remove the row.  Returns the table after the
removal. -/
def delete_tress (db : List Tress) (tress_id : ℤ) (current_user : AppUser) :
    Except ApiError (List Tress) :=
  match findTress db tress_id with
  | none => .error (.http 404 "Tress not found")
  | some tress =>
    if tress.owner_id ≠ some current_user.id then
      .error (.http 403 "Not authorized to delete this tress")
    else
      .ok (db.eraseP fun t => t.id = tress_id)

/-! ## Paginated lists (`read_public_tresses_paginated`,
`read_user_tresses_paginated`) -/

/-- The preview projection `schemas.tress.TressPreview`. -/
structure TressPreview where
  id : ℤ
  title : String
  language : String
  is_public : Bool
  owner_id : Option ℤ
  owner_username : Option String
  created_at : ℤ
  expires_at : Option ℤ
  content_preview : String
  deriving DecidableEq, Repr

/-- `schemas.tress.PaginationInfo`. -/
structure PaginationInfo where
  page : ℤ
  page_size : ℤ
  total_items : ℕ
  total_pages : ℕ
  has_next : Bool
  has_prev : Bool
  deriving DecidableEq, Repr

/-- `schemas.tress.TressPageResponse`. -/
structure TressPageResponse where
  items : List TressPreview
  pagination : PaginationInfo
  deriving DecidableEq, Repr

/-- The ordering used by `order_by(Tress.created_at.desc())`. -/
def createdDesc (a b : Tress) : Prop :=
  b.created_at ≤ a.created_at

instance : DecidableRel createdDesc := fun a b =>
  inferInstanceAs (Decidable (b.created_at ≤ a.created_at))

instance : IsTotal Tress createdDesc :=
  ⟨fun a b => le_total b.created_at a.created_at⟩

instance : IsTrans Tress createdDesc :=
  ⟨fun _ _ _ hab hbc => le_trans hbc hab⟩

/-- The rows ordered by creation time, most recent first. -/
def sortByCreatedDesc (l : List Tress) : List Tress :=
  l.insertionSort createdDesc

/-- The preview row built inside both paginated handlers:
`content[:200] + "..." if len(content) > 200 else content`. -/
def toPreview (t : Tress) : TressPreview :=
  { id := t.id
    title := t.title
    language := t.language
    is_public := t.is_public
    owner_id := t.owner_id
    owner_username := t.owner_username
    created_at := t.created_at
    expires_at := t.expires_at
    content_preview :=
      if 200 < t.content.length then ⟨t.content.data.take 200⟩ ++ "..." else t.content }

/-- The shared body of the two paginated handlers after their
rate-limit / auth preambles: parameter validation (400s), the count of
matching rows, `total_pages = (total_items + page_size - 1) //
page_size`, `offset = (page - 1) * page_size`, the
creation-time-descending page slice mapped to previews, and the
pagination envelope. -/
def paginateMatching (matchRow : Tress → Bool) (db : List Tress)
    (page page_size : ℤ) : Except ApiError TressPageResponse :=
  if page < 1 then .error (.http 400 "Page must be >= 1")
  else if page_size < 1 || 100 < page_size then
    .error (.http 400 "Page size must be between 1 and 100")
  else
    let matching := db.filter matchRow
    let total_items := matching.length
    let total_pages := (total_items + page_size.toNat - 1) / page_size.toNat
    let offset := (page.toNat - 1) * page_size.toNat
    let items := (((sortByCreatedDesc matching).drop offset).take page_size.toNat).map toPreview
    .ok
      { items := items
        pagination :=
          { page := page
            page_size := page_size
            total_items := total_items
            total_pages := total_pages
            has_next := page < (total_pages : ℤ)
            has_prev := 1 < page } }

/-- `GET /api/tress/public/pages`: anonymous requesters pass the
`public_read` rate limit, then the shared paginated body over the
public, unexpired rows. -/
def read_public_tresses_paginated (rl : RateLimiter) (client : String)
    (db : List Tress) (page page_size now : ℤ) (current_user : Option AppUser) :
    Except ApiError TressPageResponse := do
  if current_user.isNone then
    let _ ← check_rate_limit rl client "public_read" now
  paginateMatching (fun t => t.is_public && liveAt now t) db page page_size

/-- `GET /api/tress/my/pages` (authentication required): the shared
paginated body over the requester's unexpired rows. -/
def read_user_tresses_paginated (db : List Tress) (page page_size now : ℤ)
    (current_user : AppUser) : Except ApiError TressPageResponse :=
  paginateMatching (fun t => t.owner_id = some current_user.id && liveAt now t)
    db page page_size

/-! ## Auxiliary definitions used by the statements below -/

instance {ε α : Type} [DecidableEq ε] [DecidableEq α] : DecidableEq (Except ε α) := fun a b =>
  match a, b with
  | .ok x, .ok y => decidable_of_iff (x = y) (by simp)
  | .error x, .error y => decidable_of_iff (x = y) (by simp)
  | .ok _, .error _ => isFalse (by simp)
  | .error _, .ok _ => isFalse (by simp)

/-- Repeatedly call `is_allowed` for one client and endpoint class at
the given instants, threading the limiter state and collecting the
decisions in order. -/
def runCalls (rl : RateLimiter) (client endpoint_type : String) : List ℤ → RateLimiter × List Bool
  | [] => (rl, [])
  | t :: ts =>
    let r := rl.is_allowed client endpoint_type t
    let rest := runCalls r.2 client endpoint_type ts
    (rest.1, r.1 :: rest.2)

/-- Content with none of the five characters that `html.escape`
rewrites. -/
def noSpecials (s : List Char) : Prop :=
  ∀ c ∈ s, c ≠ '&' ∧ c ≠ '<' ∧ c ≠ '>' ∧ c ≠ '"' ∧ c ≠ '\''

/-- A table of 45 public, never-expiring rows (for the concrete
pagination scenario). -/
def db45 : List Tress := (List.range 45).map fun i =>
  { id := i, title := "t", content := "c", language := "text", is_public := true,
    owner_id := some 7, owner_username := some "u", created_at := i, expires_at := none }

/-- A sample public, never-expiring stored row, for concrete witnesses. -/
def sampleTress : Tress :=
  { id := 1, title := "a", content := "b", language := "text", is_public := true,
    owner_id := some 7, owner_username := some "u", created_at := 0, expires_at := none }

/-- A sample expired stored row (expired at instant 50), for concrete
witnesses. -/
def expiredTress : Tress :=
  { id := 2, title := "a", content := "b", language := "text", is_public := true,
    owner_id := some 7, owner_username := some "u", created_at := 0, expires_at := some 50 }

/-- A sample update payload (no day count supplied), for concrete
witnesses. -/
def sampleUpdate : TressCreate :=
  { title := "t2", content := "hi", language := "text", is_public := false,
    expires_in_days := none }

/-- The row `sampleTress` after a successful update with
`sampleUpdate` at instant 0 by owner 7, for concrete witnesses. -/
def sampleUpdated : Tress :=
  { id := 1, title := "t2", content := "hi", language := "text", is_public := false,
    owner_id := some 7, owner_username := some "u", created_at := 0, expires_at := none }

/-- A create payload asking for a 366-day expiry (over the schema's
365-day ceiling), for concrete witnesses. -/
def overLimitCreate : TressCreate :=
  { title := "t", content := "c", language := "text", is_public := true,
    expires_in_days := some 366 }

/-- The requester is the authenticated owner of the row (the second
disjunct of the read-visibility rule). -/
def isOwner (user : Option AppUser) (t : Tress) : Bool :=
  match user with
  | some u => t.owner_id == some u.id
  | none => false

/-! ## Supporting lemmas -/

theorem toNat_ofNat_valid (n : ℕ) (h : Char.isValidCharNat n) : (Char.ofNat n).toNat = n := by
  rw [Char.ofNat, dif_pos h]
  simp [Char.ofNatAux, Char.toNat, UInt32.ofNat', UInt32.toNat]

theorem charLe_toNat {a b : Char} (h : a ≤ b) : a.toNat ≤ b.toNat := h

theorem asciiLower_ne_amp (c : Char) (hc : c ≠ '&') : asciiLower c ≠ '&' := by
  unfold asciiLower
  split
  · rename_i h
    intro heq
    rcases h with ⟨h1, h2⟩
    have hA : ('A' : Char).toNat ≤ c.toNat := charLe_toNat h1
    have hZ : c.toNat ≤ ('Z' : Char).toNat := charLe_toNat h2
    have hAv : ('A' : Char).toNat = 65 := by decide
    have hZv : ('Z' : Char).toNat = 90 := by decide
    have hv : Char.isValidCharNat (c.toNat + 32) := Or.inl (by omega)
    have h2' := congrArg Char.toNat heq
    rw [toNat_ofNat_valid _ hv] at h2'
    have h38 : ('&' : Char).toNat = 38 := by decide
    rw [h38] at h2'
    omega
  · exact hc

theorem escapeChar_plain {c : Char} (h : c ≠ '&' ∧ c ≠ '<' ∧ c ≠ '>' ∧ c ≠ '"' ∧ c ≠ '\'') :
    escapeChar c = [c] := by
  obtain ⟨h1, h2, h3, h4, h5⟩ := h
  simp [escapeChar, h1, h2, h3, h4, h5]

theorem htmlEscape_plain {s : List Char} (h : noSpecials s) : htmlEscape s = s := by
  induction s with
  | nil => rfl
  | cons c tl ih =>
    have hc := h c (by simp)
    have htl : noSpecials tl := fun x hx => h x (by simp [hx])
    simp [htmlEscape] at ih ⊢
    rw [escapeChar_plain hc, ih htl]
    rfl

theorem startsWithCI_scriptOpen_false {c : Char} (tl : List Char) (hc : c ≠ '&') :
    startsWithCI scriptOpen (c :: tl) = false := by
  show startsWithCI ('&' :: "lt;script".data) (c :: tl) = false
  rw [startsWithCI]
  have hamp : asciiLower '&' = '&' := by decide
  rw [hamp]
  have hne := asciiLower_ne_amp c hc
  simp
  intro h
  exact absurd h.symm hne

theorem stripScriptsAux_plain (fuel : ℕ) (l : List Char) (h : ∀ c ∈ l, c ≠ '&') :
    stripScriptsAux fuel l = l := by
  induction fuel generalizing l with
  | zero => rfl
  | succ n ih =>
    match l with
    | [] => rfl
    | c :: tl =>
      have hc : c ≠ '&' := h c (by simp)
      rw [stripScriptsAux, startsWithCI_scriptOpen_false tl hc]
      simp
      exact ih tl (fun x hx => h x (by simp [hx]))

theorem sanitize_plain {s : String} (h : noSpecials s.data) : sanitize_content s = s := by
  unfold sanitize_content
  split
  · rfl
  · rw [htmlEscape_plain h, stripScripts, stripScriptsAux_plain _ _ (fun c hc => (h c hc).1)]

theorem read_tress_eq (rl : RateLimiter) (client : String) (db : List Tress)
    (id now : ℤ) (user : Option AppUser)
    (hadm : user.isSome = true ∨ (rl.is_allowed client "public_read" now).1 = true) :
    read_tress rl client db id now user =
      match findTress db id with
      | none => .error (.http 404 "Tress not found")
      | some t =>
        if isExpired t now then .error (.http 404 "Tress has expired")
        else if t.is_public || isOwner user t then .ok t
        else .error (.http 403 "Not authorized to access this tress") := by
  cases user with
  | none =>
    simp only [Option.isSome_none, Bool.false_eq_true, false_or] at hadm
    cases hfind : findTress db id with
    | none =>
      simp [read_tress, check_rate_limit, hadm, hfind, bind, Except.bind, pure, Except.pure,
        throw, throwThe, MonadExceptOf.throw]
    | some t =>
      by_cases hexp : isExpired t now <;>
        by_cases hp : t.is_public <;>
          simp [read_tress, check_rate_limit, hadm, hfind, hexp, hp, isOwner,
            bind, Except.bind, pure, Except.pure, throw, throwThe, MonadExceptOf.throw]
  | some u =>
    cases hfind : findTress db id with
    | none =>
      simp [read_tress, hfind, bind, Except.bind, pure, Except.pure,
        throw, throwThe, MonadExceptOf.throw]
    | some t =>
      by_cases hexp : isExpired t now <;>
        by_cases hp : t.is_public <;>
          by_cases ho : t.owner_id = some u.id <;>
            simp [read_tress, hfind, hexp, hp, ho, isOwner,
              bind, Except.bind, pure, Except.pure, throw, throwThe, MonadExceptOf.throw]

theorem read_tress_raw_eq (rl : RateLimiter) (client : String) (db : List Tress)
    (id now : ℤ) (user : Option AppUser) (hdr : Option String)
    (hadm : user.isSome = true ∨ (rl.is_allowed client "raw_content" now).1 = true) :
    read_tress_raw rl client db id now user hdr =
      match findTress db id with
      | none => .error (.http 404 "Tress not found")
      | some t =>
        if isExpired t now then .error (.http 404 "Tress has expired")
        else if t.is_public || isOwner user t then
          (if check_if_none_match hdr (generate_etag t.content) then .ok .notModified
           else .ok (.full t.content
             (content_type_map (lowerStr t.language) ++ "; charset=utf-8")
             ("\"" ++ generate_etag t.content ++ "\"")
             (if t.is_public then "public, max-age=3600" else "public, max-age=300")
             (securityHeaders
               (content_type_map (lowerStr t.language) ++ "; charset=utf-8"))))
        else .error (.http 403 "Not authorized to access this tress") := by
  cases user with
  | none =>
    simp only [Option.isSome_none, Bool.false_eq_true, false_or] at hadm
    cases hfind : findTress db id with
    | none =>
      simp [read_tress_raw, check_rate_limit, hadm, hfind, bind, Except.bind, pure,
        Except.pure, throw, throwThe, MonadExceptOf.throw]
    | some t =>
      by_cases hexp : isExpired t now <;>
        by_cases hp : t.is_public <;>
          by_cases hm : check_if_none_match hdr (generate_etag t.content) <;>
            simp [read_tress_raw, check_rate_limit, hadm, hfind, hexp, hp, hm, isOwner,
              bind, Except.bind, pure, Except.pure, throw, throwThe, MonadExceptOf.throw]
  | some u =>
    cases hfind : findTress db id with
    | none =>
      simp [read_tress_raw, hfind, bind, Except.bind, pure, Except.pure,
        throw, throwThe, MonadExceptOf.throw]
    | some t =>
      by_cases hexp : isExpired t now <;>
        by_cases hp : t.is_public <;>
          by_cases ho : t.owner_id = some u.id <;>
            by_cases hm : check_if_none_match hdr (generate_etag t.content) <;>
              simp [read_tress_raw, hfind, hexp, hp, ho, hm, isOwner,
                bind, Except.bind, pure, Except.pure, throw, throwThe, MonadExceptOf.throw]

theorem update_tress_eq (rl : RateLimiter) (client : String) (db : List Tress)
    (id now : ℤ) (u : AppUser) (p : TressCreate)
    (hadm : (rl.is_allowed client "default" now).1 = true) :
    update_tress rl client db id now u p =
      match findTress db id with
      | none => .error (.http 404 "Tress not found")
      | some t =>
        if isExpired t now then .error (.http 404 "Tress has expired")
        else if ¬(t.owner_id = some u.id) then
          .error (.http 403 "Not authorized to update this tress")
        else match validate_content_size p.content true with
          | .error e => .error e
          | .ok _ =>
            if validate_content_type p.language p.content = false then
              .error (.http 400 "Content does not match the specified language type")
            else .ok { t with
              title := p.title
              content := sanitize_content p.content
              language := p.language
              is_public := p.is_public
              expires_at := match p.expires_in_days with
                | some d => some (now + 86400 * d)
                | none => t.expires_at } := by
  cases hfind : findTress db id with
  | none =>
    simp [update_tress, check_rate_limit, hadm, hfind, bind, Except.bind, pure,
      Except.pure, throw, throwThe, MonadExceptOf.throw]
  | some t =>
    by_cases hexp : isExpired t now <;> by_cases ho : t.owner_id = some u.id <;>
      cases hv : validate_content_size p.content true <;>
        by_cases hvt : validate_content_type p.language p.content <;>
          simp [update_tress, check_rate_limit, hadm, hfind, hexp, ho, hv, hvt,
            bind, Except.bind, pure, Except.pure, throw, throwThe, MonadExceptOf.throw]

theorem delete_tress_eq (db : List Tress) (id : ℤ) (u : AppUser) :
    delete_tress db id u =
      match findTress db id with
      | none => .error (.http 404 "Tress not found")
      | some t =>
        if ¬(t.owner_id = some u.id) then
          .error (.http 403 "Not authorized to delete this tress")
        else .ok (db.eraseP fun t' => t'.id = id) := by
  cases hfind : findTress db id with
  | none => simp [delete_tress, hfind]
  | some t =>
    by_cases ho : t.owner_id = some u.id <;> simp [delete_tress, hfind, ho]

theorem rlLimits_window (endpoint_type : String) : (rlLimits endpoint_type).2 = 3600 := by
  unfold rlLimits
  split
  · rfl
  · split <;> rfl

theorem dropWhile_evicted_append {p : ℤ → Bool} (l : List ℤ) (x : ℤ) (hx : p x = false) :
    (l.dropWhile p ++ [x]).dropWhile p = l.dropWhile p ++ [x] := by
  induction l with
  | nil => simp [List.dropWhile, hx]
  | cons a tl ih =>
    by_cases ha : p a = true
    · simp [List.dropWhile_cons, ha, ih]
    · simp [List.dropWhile_cons, ha]

/-! ## Claim C1 — rate-limit buckets across endpoint classes -/

/-- Claim C1, counterexample: the claim "requests checked under one
endpoint class do not affect the remaining-quota count for another
class" fails.  A fresh client makes one admitted request under the
`default` class at instant 0; the remaining quota reported for the
`public_read` class at the same instant is then 99, whereas with no
prior request it is 100. -/
theorem rateLimiter_classes_not_independent_cex :
    RateLimiter.get_remaining_requests
      ((RateLimiter.init.is_allowed "203.0.113.7" "default" 0).2) "203.0.113.7" "public_read" 0
    ≠ RateLimiter.get_remaining_requests RateLimiter.init "203.0.113.7" "public_read" 0 := by
  decide

/-- Claim C1, amended: the `RateLimiter` keys its recorded deque by the
client identity only (`self.requests: Dict[str, deque]`), so the
endpoint classes share one per-client record and are **not**
independent: after a request is admitted under class `ty1` at instant
`now`, the remaining quota reported for any class `ty2` at the same
instant drops by one (whenever it was positive). -/
theorem rateLimiter_shared_across_classes (rl : RateLimiter) (client ty1 ty2 : String) (now : ℤ)
    (hacc : (rl.is_allowed client ty1 now).1 = true)
    (hrem : 0 < rl.get_remaining_requests client ty2 now) :
    (rl.is_allowed client ty1 now).2.get_remaining_requests client ty2 now
      = rl.get_remaining_requests client ty2 now - 1 := by
  simp only [RateLimiter.is_allowed, RateLimiter.get_remaining_requests, rlLimits_window]
    at hacc hrem ⊢
  set q := (rl.requests client).dropWhile (fun t => decide (t < now - 3600)) with hq
  by_cases hle : (rlLimits ty1).1 ≤ q.length
  · rw [if_pos hle] at hacc
    exact Bool.noConfusion hacc
  · rw [if_neg hle]
    simp only [eq_self_iff_true, if_true]
    have hnow : (fun t => decide ((t : ℤ) < now - 3600)) now = false := by simp
    rw [hq, dropWhile_evicted_append _ _ hnow]
    simp only [List.length_append, List.length_cons, List.length_nil]
    rw [hq] at hrem
    simp only [max_def] at hrem ⊢
    split at hrem <;> split <;> push_cast at * <;> omega

/-- Claim C1, witness for the amended statement, at a fresh limiter:
one admitted `default`-class request drops the `public_read` remaining
quota from 100 to 99. -/
theorem rateLimiter_shared_across_classes_witness :
    (RateLimiter.init.is_allowed "203.0.113.7" "default" 0).2.get_remaining_requests
        "203.0.113.7" "public_read" 0
      = RateLimiter.init.get_remaining_requests "203.0.113.7" "public_read" 0 - 1 :=
  rateLimiter_shared_across_classes RateLimiter.init "203.0.113.7" "default" "public_read" 0
    (by decide) (by decide)

/-! ## Claim C2 — idempotence of the sanitizer -/

/-- Claim C2, counterexample: `sanitize` is **not** idempotent.  On the
one-character content `<`, the first application yields `&lt;` and the
second application escapes the introduced ampersand, yielding
`&amp;lt;`. -/
theorem sanitize_content_not_idempotent_cex :
    sanitize_content (sanitize_content "<") ≠ sanitize_content "<" := by
  decide

/-- Claim C2, amended: the sanitizer is not idempotent in general (a
second application re-escapes the ampersands the first one introduced);
it is idempotent on content free of the five HTML-special characters
(`&`, `<`, `>`, `"`, `'`), where it is the identity, so a second
application changes nothing there. -/
theorem sanitize_content_idempotent_on_plain (s : String) (h : noSpecials s.data) :
    sanitize_content (sanitize_content s) = sanitize_content s := by
  rw [sanitize_plain h, sanitize_plain h]

/-- Claim C2, witness for the amended statement at the content
`hello world`. -/
theorem sanitize_content_idempotent_on_plain_witness :
    sanitize_content (sanitize_content "hello world") = sanitize_content "hello world" :=
  sanitize_content_idempotent_on_plain "hello world" (by unfold noSpecials; decide)

/-! ## Claim C6 — sliding-window admission -/

set_option maxRecDepth 8000

/-- Claim C6: each admission check first evicts recorded instants older
than `now - window`; it rejects, without recording the new instant,
exactly when the evicted queue has reached the class limit, and
otherwise records the new instant and accepts.  Consequently (for the
`public_read` class, limit 100/hour) the 101st request within the
window from one client is rejected while the first 100 are accepted,
and once the window has fully elapsed requests are accepted again
(at instant 3601, the instant-0 record having aged out). -/
theorem rate_limiter_sliding_window :
    (∀ (rl : RateLimiter) (client ty : String) (now : ℤ),
      ((rl.is_allowed client ty now).1 = true ↔
        ((rl.requests client).dropWhile (fun t => t < now - (rlLimits ty).2)).length
          < (rlLimits ty).1)
      ∧ ((rl.is_allowed client ty now).1 = false →
          (rl.is_allowed client ty now).2.requests client =
            (rl.requests client).dropWhile (fun t => t < now - (rlLimits ty).2))
      ∧ ((rl.is_allowed client ty now).1 = true →
          (rl.is_allowed client ty now).2.requests client =
            (rl.requests client).dropWhile (fun t => t < now - (rlLimits ty).2) ++ [now]))
    ∧ (runCalls RateLimiter.init "198.51.100.4" "public_read"
        ((List.range 101).map Int.ofNat)).2 = List.replicate 100 true ++ [false]
    ∧ ((runCalls RateLimiter.init "198.51.100.4" "public_read"
        ((List.range 101).map Int.ofNat)).1.is_allowed "198.51.100.4" "public_read" 3601).1
        = true := by
  refine ⟨?_, by decide, by decide⟩
  intro rl client ty now
  simp only [RateLimiter.is_allowed]
  by_cases h : (rlLimits ty).1 ≤
      ((rl.requests client).dropWhile (fun t => t < now - (rlLimits ty).2)).length
  · rw [if_pos h]
    refine ⟨by simpa using h, fun _ => by simp, fun hc => Bool.noConfusion hc⟩
  · rw [if_neg h]
    refine ⟨by simpa using Nat.lt_of_not_le h, fun hc => Bool.noConfusion hc, fun _ => by simp⟩

/-- Claim C6, witness: an accepted request on a fresh limiter records
exactly the new instant. -/
theorem rate_limiter_sliding_window_witness :
    (RateLimiter.init.is_allowed "192.0.2.1" "default" 5).2.requests "192.0.2.1" = [5] := by
  have h := (rate_limiter_sliding_window.1 RateLimiter.init "192.0.2.1" "default" 5).2.2
    (by decide)
  exact h.trans (by decide)

/-! ## Claim C4 — read visibility and expired-delete -/

theorem isOwner_iff (user : Option AppUser) (t : Tress) :
    (t.is_public || isOwner user t) = true ↔
      (t.is_public = true ∨ ∃ u, user = some u ∧ t.owner_id = some u.id) := by
  cases user <;> simp [isOwner]

/-- Claim C4: for a stored snippet and requester (with the anonymous
rate limit passed), get-by-id returns 404 when the snippet is absent or
expired, 403 when it is private and the requester is not the
authenticated owner, and otherwise the entity: a non-expired snippet is
readable iff it is public or the requester is the authenticated owner.
Owner deletion succeeds with no expiry test at all (the `delete_tress`
conjunct carries no hypothesis on `expires_at`), so it succeeds even on
an expired snippet. -/
theorem read_visibility_and_delete_spec :
    (∀ (rl : RateLimiter) (client : String) (db : List Tress) (id now : ℤ)
       (user : Option AppUser),
      (user.isSome = true ∨ (rl.is_allowed client "public_read" now).1 = true) →
      ((findTress db id = none →
          ∃ m, read_tress rl client db id now user = .error (.http 404 m))
      ∧ (∀ t, findTress db id = some t → isExpired t now = true →
          ∃ m, read_tress rl client db id now user = .error (.http 404 m))
      ∧ (∀ t, findTress db id = some t → isExpired t now = false →
          ((read_tress rl client db id now user = .ok t ↔
            (t.is_public = true ∨ ∃ u, user = some u ∧ t.owner_id = some u.id))
          ∧ (¬(t.is_public = true ∨ ∃ u, user = some u ∧ t.owner_id = some u.id) →
              read_tress rl client db id now user
                = .error (.http 403 "Not authorized to access this tress"))))))
    ∧ (∀ (db : List Tress) (id : ℤ) (u : AppUser) (t : Tress),
        findTress db id = some t → t.owner_id = some u.id →
        delete_tress db id u = .ok (db.eraseP fun t' => t'.id = id)) := by
  constructor
  · intro rl client db id now user hadm
    rw [read_tress_eq rl client db id now user hadm]
    refine ⟨?_, ?_, ?_⟩
    · intro hnone
      rw [hnone]
      exact ⟨_, rfl⟩
    · intro t hfind hexp
      rw [hfind]
      simp only [hexp, if_true]
      exact ⟨_, rfl⟩
    · intro t hfind hexp
      rw [hfind]
      simp only [hexp, Bool.false_eq_true, if_false]
      by_cases hv : (t.is_public || isOwner user t) = true
      · rw [if_pos hv]
        simp only [Except.ok.injEq]
        refine ⟨⟨fun _ => (isOwner_iff user t).mp hv, fun _ => trivial⟩, ?_⟩
        intro hcon
        exact absurd ((isOwner_iff user t).mp hv) hcon
      · rw [if_neg hv]
        refine ⟨⟨fun h => absurd h (by simp), fun h => absurd ((isOwner_iff user t).mpr h) hv⟩, ?_⟩
        intro _
        rfl
  · intro db id u t hfind hown
    rw [delete_tress_eq db id u, hfind]
    simp [hown]

/-- Claim C4, witness: an anonymous requester reads a public,
non-expired snippet successfully. -/
theorem read_visibility_and_delete_spec_witness :
    read_tress RateLimiter.init "192.0.2.9" [sampleTress] 1 0 none = .ok sampleTress := by
  have h := ((read_visibility_and_delete_spec.1 RateLimiter.init "192.0.2.9" [sampleTress] 1 0
    none (by decide)).2.2 sampleTress (by decide) (by decide)).1
  exact h.mpr (Or.inl (by decide))

/-! ## Claim C3 — 404 messages for absent vs expired -/

/-- Claim C3, counterexample: the 404 raised for a missing snippet
carries the detail `Tress not found`, while the 404 raised for an
expired snippet (`expiredTress`, expired at instant 50, read at
instant 100) carries the different detail `Tress has expired` — the two
cases are distinguishable to the client, contrary to the claim. -/
theorem notfound_message_cex :
    read_tress RateLimiter.init "192.0.2.2" [] 2 100 none
        = .error (.http 404 "Tress not found")
    ∧ read_tress RateLimiter.init "192.0.2.2" [expiredTress] 2 100 none
        = .error (.http 404 "Tress has expired")
    ∧ "Tress not found" ≠ "Tress has expired" :=
  ⟨by decide, by decide, by decide⟩

/-- Claim C3, amended: the three read-path operations (get-by-id,
get-raw, update) all answer 404 in both cases, and each operation uses
the same message for a given case, but the messages **differ between
the cases**: `Tress not found` when the snippet is absent and
`Tress has expired` when it exists but has expired, so the expiry state
is leaked. -/
theorem notfound_vs_expired_messages (rl : RateLimiter) (client : String) (db : List Tress)
    (id now : ℤ) (user : Option AppUser) (u : AppUser) (p : TressCreate) (hdr : Option String)
    (hadmPub : user.isSome = true ∨ (rl.is_allowed client "public_read" now).1 = true)
    (hadmRaw : user.isSome = true ∨ (rl.is_allowed client "raw_content" now).1 = true)
    (hadmDef : (rl.is_allowed client "default" now).1 = true) :
    (findTress db id = none →
      read_tress rl client db id now user = .error (.http 404 "Tress not found")
      ∧ read_tress_raw rl client db id now user hdr = .error (.http 404 "Tress not found")
      ∧ update_tress rl client db id now u p = .error (.http 404 "Tress not found"))
    ∧ (∀ t, findTress db id = some t → isExpired t now = true →
      read_tress rl client db id now user = .error (.http 404 "Tress has expired")
      ∧ read_tress_raw rl client db id now user hdr = .error (.http 404 "Tress has expired")
      ∧ update_tress rl client db id now u p = .error (.http 404 "Tress has expired"))
    ∧ "Tress not found" ≠ "Tress has expired" := by
  refine ⟨?_, ?_, by decide⟩
  · intro hnone
    rw [read_tress_eq rl client db id now user hadmPub,
      read_tress_raw_eq rl client db id now user hdr hadmRaw,
      update_tress_eq rl client db id now u p hadmDef, hnone]
    exact ⟨rfl, rfl, rfl⟩
  · intro t hfind hexp
    rw [read_tress_eq rl client db id now user hadmPub,
      read_tress_raw_eq rl client db id now user hdr hadmRaw,
      update_tress_eq rl client db id now u p hadmDef, hfind]
    simp only [hexp, if_true]
    exact ⟨trivial, trivial, trivial⟩

/-- Claim C3, witness for the amended statement: a missing id yields
the `Tress not found` 404 on get-by-id, and an expired row yields the
`Tress has expired` 404 on the raw read. -/
theorem notfound_vs_expired_messages_witness :
    read_tress RateLimiter.init "192.0.2.2" [] 2 100 none
        = .error (.http 404 "Tress not found")
    ∧ read_tress_raw RateLimiter.init "192.0.2.2" [expiredTress] 2 100 none none
        = .error (.http 404 "Tress has expired") := by
  constructor
  · exact ((notfound_vs_expired_messages RateLimiter.init "192.0.2.2" [] 2 100 none
      ⟨7, "u"⟩ { title := "t", content := "c", language := "text" } none
      (by decide) (by decide) (by decide)).1 (by decide)).1
  · exact (((notfound_vs_expired_messages RateLimiter.init "192.0.2.2" [expiredTress] 2 100 none
      ⟨7, "u"⟩ { title := "t", content := "c", language := "text" } none
      (by decide) (by decide) (by decide)).2.1) expiredTress (by decide) (by decide)).2.1

/-! ## Claim C9 — conditional requests and the 304 short-circuit -/

theorem stripBoth_quoted (l : List Char) :
    ((('"' :: (l ++ ['"'])).dropWhile (fun c => c = '"')).reverse.dropWhile
        (fun c => c = '"')).reverse
      = ((l.dropWhile (fun c => c = '"')).reverse.dropWhile (fun c => c = '"')).reverse := by
  rw [List.dropWhile_cons_of_pos (by decide), List.dropWhile_append]
  cases hfl : (l.dropWhile (fun c => c = '"')).isEmpty
  · simp only [hfl, Bool.false_eq_true, if_false, List.reverse_append, List.reverse_cons,
      List.reverse_nil, List.nil_append, List.singleton_append]
    rw [List.dropWhile_cons_of_pos (by decide)]
  · simp only [hfl, if_true]
    rw [List.isEmpty_iff] at hfl
    rw [hfl]
    simp

theorem stripQuotes_quoted (h : String) :
    stripQuotes ("\"" ++ h ++ "\"") = stripQuotes h := by
  unfold stripQuotes
  have hd : ("\"" ++ h ++ "\"").data = '"' :: (h.data ++ ['"']) := by
    simp [String.data_append]
  rw [hd]
  exact congrArg String.mk (stripBoth_quoted h.data)

theorem md5Hex_length (msg : List ℕ) : (md5Hex msg).length = 32 := rfl

theorem quoted_ne_empty (h : String) : ("\"" ++ h ++ "\"") ≠ "" := by
  intro hc
  have hd := congrArg String.data hc
  simp [String.data_append] at hd

/-- Claim C9: an absent `If-None-Match` header never matches (and by
the same truthiness test an empty one never matches either); the
fingerprint of the stored content is always a 32-character digest, so
it is never the empty string; against any non-empty tag — in
particular every fingerprint — a present header matches exactly when it
equals the tag after its surrounding quote characters are stripped (so
a quoted-string header behaves like the bare tag); and when the header
matches, the raw endpoint answers the 304 body-less `notModified`
response, short-circuiting before content-type inference and
security-header attachment (the `notModified` response carries no body,
content type or security headers by construction). -/
theorem conditional_request_spec :
    (∀ etag, check_if_none_match none etag = false)
    ∧ (∀ content, (generate_etag content).length = 32)
    ∧ (∀ (h etag : String), etag ≠ "" →
        (check_if_none_match (some h) etag = true ↔ stripQuotes h = etag)
        ∧ check_if_none_match (some ("\"" ++ h ++ "\"")) etag
          = check_if_none_match (some h) etag)
    ∧ (∀ (rl : RateLimiter) (client : String) (db : List Tress) (id now : ℤ)
        (user : Option AppUser) (hdr : Option String) (t : Tress),
        (user.isSome = true ∨ (rl.is_allowed client "raw_content" now).1 = true) →
        findTress db id = some t → isExpired t now = false →
        (t.is_public || isOwner user t) = true →
        check_if_none_match hdr (generate_etag t.content) = true →
        read_tress_raw rl client db id now user hdr = .ok .notModified) := by
  refine ⟨fun _ => rfl, fun _ => md5Hex_length _, ?_, ?_⟩
  · intro h etag hne
    have hne2 : ¬("" = etag) := fun hc => hne hc.symm
    by_cases hh : h = ""
    · subst hh
      constructor
      · simp [check_if_none_match, stripQuotes, hne2]
      · have hq : ("\"" ++ "" ++ "\"" : String) = "\"\"" := rfl
        rw [hq]
        simp [check_if_none_match]
        intro hc
        exact absurd (show ("" : String) = etag from hc) hne2
    · constructor
      · simp [check_if_none_match, hh]
      · rw [show check_if_none_match (some ("\"" ++ h ++ "\"")) etag
            = (if ("\"" ++ h ++ "\"" : String) = "" then false
               else stripQuotes ("\"" ++ h ++ "\"") = etag) from rfl]
        rw [if_neg (quoted_ne_empty h), stripQuotes_quoted]
        simp [check_if_none_match, hh]
  · intro rl client db id now user hdr t hadm hfind hexp hvis hm
    rw [read_tress_raw_eq rl client db id now user hdr hadm, hfind]
    simp only [hexp, Bool.false_eq_true, if_false, hvis, if_true, hm]

/-- Claim C9, witness: a quoted `If-None-Match` carrying the stored
content's MD5 tag produces the 304 short-circuit. -/
theorem conditional_request_spec_witness :
    read_tress_raw RateLimiter.init "192.0.2.3" [sampleTress] 1 0 none
      (some ("\"" ++ generate_etag "b" ++ "\"")) = .ok .notModified :=
  conditional_request_spec.2.2.2 RateLimiter.init "192.0.2.3" [sampleTress] 1 0 none
    (some ("\"" ++ generate_etag "b" ++ "\"")) sampleTress (by decide) (by decide)
    (by decide) (by decide) (by decide)

/-! ## Claim C5 — content size ceilings -/

/-- Claim C5: `validate_content_size` measures the UTF-8 byte length of
the content and passes exactly the contents of at most 256 KiB
(anonymous) resp. 1 MiB (authenticated); anything over the applicable
ceiling — in particular one byte over — fails with the 413 size error
carrying the measured size and the ceiling. -/
theorem validate_content_size_spec :
    (∀ (content : String) (is_authenticated : Bool),
      validate_content_size content is_authenticated =
        (if (utf8Encode content.data).length ≤
            (if is_authenticated then MAX_CONTENT_SIZE_AUTHENTICATED
             else MAX_CONTENT_SIZE_ANONYMOUS) then
          .ok ()
        else .error (.payloadTooLarge (utf8Encode content.data).length
            (if is_authenticated then MAX_CONTENT_SIZE_AUTHENTICATED
             else MAX_CONTENT_SIZE_ANONYMOUS))))
    ∧ (∀ n m : ℕ, (ApiError.payloadTooLarge n m).status = 413)
    ∧ MAX_CONTENT_SIZE_ANONYMOUS = 256 * 1024 ∧ MAX_CONTENT_SIZE_AUTHENTICATED = 1024 * 1024 := by
  refine ⟨?_, fun n m => rfl, rfl, rfl⟩
  intro content is_authenticated
  unfold validate_content_size
  split
  · rename_i h
    subst h
    cases is_authenticated <;> decide
  · set sz := (utf8Encode content.data).length
    set mx := if is_authenticated then MAX_CONTENT_SIZE_AUTHENTICATED
      else MAX_CONTENT_SIZE_ANONYMOUS
    rcases Nat.lt_or_ge mx sz with hlt | hge
    · rw [if_pos hlt, if_neg (by omega)]
    · rw [if_neg (by omega), if_pos hge]

/-! ## Claim C7 — update frame conditions -/

/-- Claim C7: every successful update leaves the row's id, owner id,
owner username and creation timestamp exactly as they were; it replaces
title, language and visibility with the payload's values and the
content with the sanitized payload content; and it sets `expires_at` to
`now + 86400 * d` when a day count `d` is supplied and preserves the
stored `expires_at` unchanged when it is omitted. -/
theorem update_frame_spec (rl : RateLimiter) (client : String) (db : List Tress)
    (id now : ℤ) (u : AppUser) (p : TressCreate) (t' : Tress)
    (hadm : (rl.is_allowed client "default" now).1 = true)
    (hok : update_tress rl client db id now u p = .ok t') :
    ∃ t, findTress db id = some t
      ∧ t'.id = t.id ∧ t'.owner_id = t.owner_id ∧ t'.owner_username = t.owner_username
      ∧ t'.created_at = t.created_at
      ∧ t'.title = p.title ∧ t'.content = sanitize_content p.content
      ∧ t'.language = p.language ∧ t'.is_public = p.is_public
      ∧ t'.expires_at = (match p.expires_in_days with
          | some d => some (now + 86400 * d)
          | none => t.expires_at) := by
  rw [update_tress_eq rl client db id now u p hadm] at hok
  cases hfind : findTress db id with
  | none =>
    rw [hfind] at hok
    exact absurd hok (by simp)
  | some t =>
    rw [hfind] at hok
    by_cases hexp : isExpired t now
    · simp [hexp] at hok
    · simp only [hexp, Bool.false_eq_true, if_false] at hok
      by_cases ho : t.owner_id = some u.id
      · rw [if_neg (not_not_intro ho)] at hok
        cases hv : validate_content_size p.content true with
        | error e =>
          simp only [hv] at hok
          exact absurd hok (by simp)
        | ok v =>
          simp only [hv] at hok
          by_cases hvt : validate_content_type p.language p.content
          · rw [if_neg (by simp [hvt])] at hok
            have heq := Except.ok.inj hok
            refine ⟨t, rfl, ?_⟩
            rw [← heq]
            exact ⟨rfl, rfl, rfl, rfl, rfl, rfl, rfl, rfl, rfl⟩
          · rw [if_pos (by simpa using hvt)] at hok
            exact absurd hok (by simp)
      · rw [if_pos ho] at hok
        exact absurd hok (by simp)

/-- Claim C7, witness: updating `sampleTress` with `sampleUpdate`
(owner 7, instant 0) succeeds and yields `sampleUpdated`, preserving
owner and creation fields and the stored expiry. -/
theorem update_frame_spec_witness :
    ∃ t, findTress [sampleTress] 1 = some t
      ∧ sampleUpdated.id = t.id ∧ sampleUpdated.owner_id = t.owner_id
      ∧ sampleUpdated.owner_username = t.owner_username
      ∧ sampleUpdated.created_at = t.created_at
      ∧ sampleUpdated.title = sampleUpdate.title
      ∧ sampleUpdated.content = sanitize_content sampleUpdate.content
      ∧ sampleUpdated.language = sampleUpdate.language
      ∧ sampleUpdated.is_public = sampleUpdate.is_public
      ∧ sampleUpdated.expires_at = (match sampleUpdate.expires_in_days with
          | some d => some ((0 : ℤ) + 86400 * d)
          | none => t.expires_at) :=
  update_frame_spec RateLimiter.init "192.0.2.4" [sampleTress] 1 0 ⟨7, "u"⟩ sampleUpdate
    sampleUpdated (by decide) (by decide)

/-! ## Claim C10 — expiry-day validation and the unreachable branch -/

theorem validate_content_size_no_http (content : String) (b : Bool) (s : ℕ) (m : String) :
    validate_content_size content b ≠ .error (.http s m) := by
  unfold validate_content_size
  split
  · simp
  · split <;> dsimp only <;> split <;> simp

/-- Claim C10: a supplied `expires_in_days` outside `[1, 365]` is
rejected by pydantic's field validation before either handler body runs
(for authenticated and anonymous submitters alike, so both are bound by
the same 365-day ceiling), and the create handler's anonymous-only
check for values above 365 is unreachable: no input whatsoever makes
`create_endpoint` return its 400 error. -/
theorem expires_validation_spec :
    (∀ (rl : RateLimiter) (client : String) (newId now : ℤ) (user : Option AppUser)
       (db : List Tress) (id : ℤ) (u : AppUser) (p : TressCreate) (d : ℤ),
      p.expires_in_days = some d → (d < 1 ∨ 365 < d) →
      create_endpoint rl client newId now user p = .error .validationFailed
      ∧ update_endpoint rl client db id now u p = .error .validationFailed)
    ∧ (∀ (rl : RateLimiter) (client : String) (newId now : ℤ) (user : Option AppUser)
       (p : TressCreate),
      create_endpoint rl client newId now user p
        ≠ .error (.http 400 "Anonymous users can only set expiration up to 365 days")) := by
  constructor
  · intro rl client newId now user db id u p d hd hout
    have hval : tressCreate_valid p = false := by
      unfold tressCreate_valid
      rw [hd]
      simp only [Bool.and_eq_false_iff, decide_eq_false_iff_not, not_le]
      omega
    constructor
    · simp [create_endpoint, hval]
    · simp [update_endpoint, hval]
  · intro rl client newId now user p
    by_cases hval : tressCreate_valid p = true
    · unfold create_endpoint
      rw [hval]
      simp only [Bool.not_true, Bool.false_eq_true, if_false]
      unfold create_tress
      by_cases hrl : (rl.is_allowed client (if user.isNone then "public_read" else "default") now).1
      · simp only [check_rate_limit, hrl, if_true, bind, Except.bind, pure, Except.pure,
          throw, throwThe, MonadExceptOf.throw]
        cases hv : validate_content_size p.content user.isSome with
        | error e =>
          simp only [hv]
          intro hcon
          have he := Except.error.inj hcon
          subst he
          exact absurd hv (validate_content_size_no_http _ _ _ _)
        | ok v =>
          simp only [hv]
          by_cases hvt : validate_content_type p.language p.content
          · simp only [hvt, Bool.not_true, Bool.false_eq_true, if_false]
            cases hpd : p.expires_in_days with
            | none =>
              by_cases hn : user.isNone = true <;>
                simp [hn, bind, Except.bind, pure, Except.pure]
            | some d =>
              have hd365 : d ≤ 365 := by
                unfold tressCreate_valid at hval
                rw [hpd] at hval
                simp at hval
                exact hval.2
              have hcond : (user.isNone && decide (365 < d)) = false := by
                simp
                intro _
                omega
              simp [hcond, bind, Except.bind, pure, Except.pure]
          · simp only [hvt, Bool.not_false, if_true]
            simp
      · simp only [Bool.not_eq_true] at hrl
        simp only [check_rate_limit, hrl, Bool.false_eq_true, if_false, bind, Except.bind]
        simp
    · unfold create_endpoint
      simp only [Bool.not_eq_true] at hval
      rw [hval]
      simp

/-- Claim C10, witness: an authenticated create with
`expires_in_days = 366` is rejected by the schema validation (not by
the handler's anonymous-only check). -/
theorem expires_validation_spec_witness :
    create_endpoint RateLimiter.init "192.0.2.5" 1 0 (some ⟨7, "u"⟩) overLimitCreate
      = .error .validationFailed :=
  (expires_validation_spec.1 RateLimiter.init "192.0.2.5" 1 0 (some ⟨7, "u"⟩) [] 1 ⟨7, "u"⟩
    overLimitCreate 366 rfl (Or.inr (by omega))).1

/-! ## Claim C8 — pagination -/

theorem read_public_paginated_eq (rl : RateLimiter) (client : String) (db : List Tress)
    (page page_size now : ℤ) (user : Option AppUser)
    (hadm : user.isSome = true ∨ (rl.is_allowed client "public_read" now).1 = true) :
    read_public_tresses_paginated rl client db page page_size now user
      = paginateMatching (fun t => t.is_public && liveAt now t) db page page_size := by
  cases user with
  | none =>
    simp only [Option.isSome_none, Bool.false_eq_true, false_or] at hadm
    simp [read_public_tresses_paginated, check_rate_limit, hadm, bind, Except.bind,
      pure, Except.pure]
  | some u =>
    simp [read_public_tresses_paginated, bind, Except.bind, pure, Except.pure]

theorem read_user_paginated_eq (db : List Tress) (page page_size now : ℤ) (u : AppUser) :
    read_user_tresses_paginated db page page_size now u
      = paginateMatching (fun t => t.owner_id = some u.id && liveAt now t) db page page_size :=
  rfl

theorem paginateMatching_valid (matchRow : Tress → Bool) (db : List Tress)
    (page page_size : ℤ) (hp : 1 ≤ page) (hs1 : 1 ≤ page_size) (hs2 : page_size ≤ 100) :
    ∃ resp, paginateMatching matchRow db page page_size = .ok resp
      ∧ resp.pagination.total_items = (db.filter matchRow).length
      ∧ resp.pagination.total_pages
          = ((db.filter matchRow).length + page_size.toNat - 1) / page_size.toNat
      ∧ (db.filter matchRow).length ≤ resp.pagination.total_pages * page_size.toNat
      ∧ (∀ m : ℕ, (db.filter matchRow).length ≤ m * page_size.toNat →
          resp.pagination.total_pages ≤ m)
      ∧ resp.pagination.has_next = decide (page < (resp.pagination.total_pages : ℤ))
      ∧ resp.pagination.has_prev = decide (1 < page)
      ∧ resp.items.Pairwise (fun a b => b.created_at ≤ a.created_at)
      ∧ (∀ pv ∈ resp.items, ∃ t, t ∈ db ∧ matchRow t = true ∧ pv = toPreview t) := by
  have hk : 1 ≤ page_size.toNat := by omega
  unfold paginateMatching
  rw [if_neg (by omega), if_neg (by simp; omega)]
  refine ⟨_, rfl, rfl, rfl, ?_, ?_, rfl, rfl, ?_, ?_⟩
  · set n := (db.filter matchRow).length
    rw [← Nat.ceilDiv_eq_add_pred_div]
    have h := le_smul_ceilDiv (show 0 < page_size.toNat by omega) (b := n)
    simpa [smul_eq_mul, Nat.mul_comm] using h
  · intro m hm
    rw [← Nat.ceilDiv_eq_add_pred_div]
    exact (ceilDiv_le_iff_le_mul (show 0 < page_size.toNat by omega)).mpr
      (by simpa [smul_eq_mul, Nat.mul_comm] using hm)
  · have hsort : List.Pairwise createdDesc
        (sortByCreatedDesc (db.filter matchRow)) :=
      List.sorted_insertionSort createdDesc (db.filter matchRow)
    have hsub : List.Sublist
        (((sortByCreatedDesc (db.filter matchRow)).drop
          ((page.toNat - 1) * page_size.toNat)).take page_size.toNat)
        (sortByCreatedDesc (db.filter matchRow)) :=
      (List.take_sublist _ _).trans (List.drop_sublist _ _)
    have hp2 := hsort.sublist hsub
    rw [List.pairwise_map]
    exact hp2.imp fun h => h
  · intro pv hpv
    rw [List.mem_map] at hpv
    obtain ⟨t, ht, rfl⟩ := hpv
    have ht2 : t ∈ sortByCreatedDesc (db.filter matchRow) :=
      ((List.take_sublist _ _).trans (List.drop_sublist _ _)).subset ht
    rw [sortByCreatedDesc, List.mem_insertionSort] at ht2
    rw [List.mem_filter] at ht2
    exact ⟨t, ht2.1, ht2.2, rfl⟩

theorem paginateMatching_invalid (matchRow : Tress → Bool) (db : List Tress)
    (page page_size : ℤ) (hbad : page < 1 ∨ page_size < 1 ∨ 100 < page_size) :
    ∃ m, paginateMatching matchRow db page page_size = .error (.http 400 m) := by
  unfold paginateMatching
  by_cases h1 : page < 1
  · rw [if_pos h1]
    exact ⟨_, rfl⟩
  · rw [if_neg h1, if_pos (by simp; omega)]
    exact ⟨_, rfl⟩

/-- Claim C8: for the paginated public and owned list endpoints, a
page number below 1 or a page size outside `[1, 100]` yields a 400
error; for valid parameters the response reports
`total_pages = ⌈matching / page_size⌉` (both as the `(n + k - 1) / k`
formula and through the ceiling's defining bounds),
`has_next = (page < total_pages)`, `has_prev = (page > 1)`, the items
ordered by creation time most recent first, and every item a preview of
a matching stored row whose `content_preview` is the first 200
characters with `"..."` appended exactly when the content is longer
than 200 characters; in particular 45 matching rows with `page = 1`,
`page_size = 20` yield `total_pages = 3`, `has_next = true`,
`has_prev = false`. -/
theorem pagination_spec :
    (∀ (rl : RateLimiter) (client : String) (db : List Tress) (page page_size now : ℤ)
        (user : Option AppUser) (u : AppUser),
      (page < 1 ∨ page_size < 1 ∨ 100 < page_size) →
      ((user.isSome = true ∨ (rl.is_allowed client "public_read" now).1 = true) →
        ∃ m, read_public_tresses_paginated rl client db page page_size now user
          = .error (.http 400 m))
      ∧ (∃ m, read_user_tresses_paginated db page page_size now u = .error (.http 400 m)))
    ∧ (∀ (rl : RateLimiter) (client : String) (db : List Tress) (page page_size now : ℤ)
        (user : Option AppUser),
      (user.isSome = true ∨ (rl.is_allowed client "public_read" now).1 = true) →
      read_public_tresses_paginated rl client db page page_size now user
        = paginateMatching (fun t => t.is_public && liveAt now t) db page page_size)
    ∧ (∀ (db : List Tress) (page page_size now : ℤ) (u : AppUser),
      read_user_tresses_paginated db page page_size now u
        = paginateMatching (fun t => t.owner_id = some u.id && liveAt now t) db page page_size)
    ∧ (∀ (matchRow : Tress → Bool) (db : List Tress) (page page_size : ℤ),
      1 ≤ page → 1 ≤ page_size → page_size ≤ 100 →
      ∃ resp, paginateMatching matchRow db page page_size = .ok resp
        ∧ resp.pagination.total_items = (db.filter matchRow).length
        ∧ resp.pagination.total_pages
            = ((db.filter matchRow).length + page_size.toNat - 1) / page_size.toNat
        ∧ (db.filter matchRow).length ≤ resp.pagination.total_pages * page_size.toNat
        ∧ (∀ m : ℕ, (db.filter matchRow).length ≤ m * page_size.toNat →
            resp.pagination.total_pages ≤ m)
        ∧ resp.pagination.has_next = decide (page < (resp.pagination.total_pages : ℤ))
        ∧ resp.pagination.has_prev = decide (1 < page)
        ∧ resp.items.Pairwise (fun a b => b.created_at ≤ a.created_at)
        ∧ (∀ pv ∈ resp.items, ∃ t, t ∈ db ∧ matchRow t = true ∧ pv = toPreview t))
    ∧ (∀ t : Tress, (toPreview t).content_preview
        = (if 200 < t.content.length then ⟨t.content.data.take 200⟩ ++ "..." else t.content))
    ∧ ((read_public_tresses_paginated RateLimiter.init "192.0.2.6" db45 1 20 0
          (some ⟨9, "x"⟩)).map
        (fun r => (r.pagination.total_pages, r.pagination.has_next, r.pagination.has_prev))
        = .ok (3, true, false)) := by
  refine ⟨?_, read_public_paginated_eq, read_user_paginated_eq, paginateMatching_valid,
    fun t => rfl, by decide⟩
  intro rl client db page page_size now user u hbad
  constructor
  · intro hadm
    rw [read_public_paginated_eq rl client db page page_size now user hadm]
    exact paginateMatching_invalid _ db page page_size hbad
  · rw [read_user_paginated_eq db page page_size now u]
    exact paginateMatching_invalid _ db page page_size hbad

/-- Claim C8, witness: `page = 0` on the owned list is rejected with a
400 error. -/
theorem pagination_spec_witness :
    ∃ m, read_user_tresses_paginated db45 0 20 0 ⟨7, "u"⟩ = .error (.http 400 m) :=
  (pagination_spec.1 RateLimiter.init "192.0.2.6" db45 0 20 0 none ⟨7, "u"⟩
    (Or.inl (by omega))).2
